import Mathlib

/-!
Shallow embedding of `query_rewriter/query/relaxer.py` (class `QueryRelaxer`).

Modelling choices, shared by all definitions below:

* An RFD catalog row (`rfds_df` row) is a record `Rfd`: the `RHS` column holds
  the dependent attribute's name (a string); every other column holds either a
  numeric threshold or NaN.  Pandas float thresholds are modelled as `ℚ`; a
  NaN cell — and equally a column absent from the row's schema — is `none`.
* A catalog (`rfds_df`) is the ordered list of its rows; pandas row order is
  list order, and `reset_index(drop=True)` is the identity on that view.
* A query is the ordered association list of its dict entries (Python dicts
  iterate in insertion order and have unique keys).
* Python scalar values appearing in queries are modelled by `Value`:
  `int`, `float` (any non-integer numeric), `str`, and the two list shapes
  the relaxer itself produces.
-/

/-- One row of the RFDs DataFrame: the `RHS` attribute name plus the threshold
columns.  `none` models a NaN cell (absent threshold). -/
structure Rfd where
  RHS : String
  attrs : List (String × Option ℚ)
deriving DecidableEq

/-- Threshold of attribute `a` in row `r`: `rfd[a]` when it is a number,
`none` when the cell is NaN or the column is absent from the schema. -/
def lookupThreshold (r : Rfd) (a : String) : Option ℚ :=
  match r.attrs.lookup a with
  | some (some t) => some t
  | _ => none

/-- A Python value held by a query attribute. -/
inductive Value where
  | int (n : ℤ)
  | float (q : ℚ)
  | str (s : String)
  | intList (l : List ℤ)
  | strList (l : List String)
deriving DecidableEq

/-- `true` exactly on the collection (list) values the relaxer produces. -/
def Value.isCollection : Value → Bool
  | .intList _ => true
  | .strList _ => true
  | _ => false

/-- A query: ordered dict from attribute name to value. -/
abbrev Query := List (String × Value)

/-- The dataset, restricted to its string columns (the only ones the relaxer
reads): column name ↦ the column's values in row order. -/
abbrev DataSet := List (String × List String)

/-- `QueryRelaxer.drop_query_na` (relaxer.py lines 37–43):
`rfds_df.dropna(subset=query_attributes)` keeps a row iff every query
attribute's cell holds a (non-NaN) value.

Modelled from the spec: the pandas behaviour of `dropna` for a subset column
absent from the catalog's schema is not in `src/`; per the spec (§7
SchemaMismatch) a missing column reads as a missing value in every row, so
every row is dropped and the filtered catalog is empty. -/
def drop_query_na (query_attributes : List String) (rfds_df : List Rfd) : List Rfd :=
  rfds_df.filter (fun r => query_attributes.all (fun a => (lookupThreshold r a).isSome))

/-- `QueryRelaxer.drop_query_rhs` (relaxer.py lines 45–52): drop the rows whose
`RHS` value is one of the query attributes (`isin`), keeping the others in
order (`drop` by index on a default integer index = filter). -/
def drop_query_rhs (query_attributes : List String) (rfds_df : List Rfd) : List Rfd :=
  rfds_df.filter (fun r => !(decide (r.RHS ∈ query_attributes)))

/-- `QueryRelaxer.sort_nan_query_attributes` (relaxer.py lines 54–74), embedded
with its actual dataflow:

* `ascending = [False]`;
* `sorting_cols = self.query_attributes` aliases the instance list;
* `sorting_cols = sorting_cols.extend([nan_count])` calls `list.extend`, which
  appends `"NaNs"` to the aliased `self.query_attributes` **in place** and
  returns `None`, so `sorting_cols` is rebound to `None`;
* `self.rfds_df.sort_values(by=None, ...)` then raises (pandas rejects a
  `None`/length-mismatched sort key), so no sorted frame is ever produced.

The embedding returns the raised error together with the final (mutated)
`query_attributes` list. -/
def sort_nan_query_attributes (query_attributes : List String) (rfds_df : List Rfd) :
    Except String (List Rfd) × List String :=
  let nan_count := "NaNs"
  let sorting_cols := query_attributes
  let query_attributes := sorting_cols ++ [nan_count]
  let sorting_cols : Option (List String) := none
  match sorting_cols with
  | none => (Except.error "sort_values: sort key is None", query_attributes)
  | some _ => (Except.ok rfds_df, query_attributes)

/-- `int(x)` on a Python float: truncation toward zero. -/
def pyInt (q : ℚ) : ℤ :=
  if q < 0 then ⌈q⌉ else ⌊q⌋

/-- Python `range(a, b)` materialized by `list(...)`: the integers
`a, a+1, …, b-1` (empty when `b ≤ a`). -/
def pyRange (a b : ℤ) : List ℤ :=
  (List.range (b - a).toNat).map (fun i : ℕ => a + (i : ℤ))

/-- Levenshtein edit distance between two character lists, the textbook
recurrence (unit-cost insert / delete / substitute).  Models the value
computed by the third-party `editdistance.eval`. -/
def editDistance : List Char → List Char → ℕ
  | [], ys => ys.length
  | x :: xs, [] => (x :: xs).length
  | x :: xs, y :: ys =>
    min (editDistance xs ys + (if x = y then 0 else 1))
      (min (editDistance (x :: xs) ys + 1) (editDistance xs (y :: ys) + 1))
termination_by xs ys => xs.length + ys.length

/-- Edit distance on Python strings: `editdistance.eval(s, w)`. -/
def editDist (s w : String) : ℕ :=
  editDistance s.data w.data

/-- `QueryRelaxer.similar_strings` (relaxer.py lines 126–138): the values of
column `col` of `data`, in row order, whose edit distance to `source` is at
most `threshold`.  A column absent from `data` is modelled as empty (in pandas
the column lookup would fail; no claim exercises that case). -/
def similar_strings (source : String) (data : DataSet) (col : String) (threshold : ℚ) :
    List String :=
  (((data.lookup col).getD []).filter
    (fun word => decide ((editDist source word : ℚ) ≤ threshold)))

/-- The per-attribute body of the loop of `extend_query_ranges` (relaxer.py
lines 101–123): with `key in rfd` and a non-NaN `threshold = rfd[key]`
modelled together by `lookupThreshold` (a NaN threshold fails the
`threshold > 0.0` test exactly as an absent key fails `key in rfd`):

* `threshold > 0.0` and `isinstance(val, int)`: the value becomes
  `list(range(int(val - threshold), int(val + threshold + 1)))`;
* `threshold > 0.0` and `isinstance(val, str)`: the value becomes
  `QueryRelaxer.similar_strings(val, data_set, key, threshold)`;
* otherwise the value is left untouched. -/
def extendValue (rfd : Rfd) (data_set : DataSet) (key : String) (val : Value) : Value :=
  match lookupThreshold rfd key with
  | none => val
  | some threshold =>
    if 0 < threshold then
      match val with
      | .int v => .intList (pyRange (pyInt ((v : ℚ) - threshold)) (pyInt ((v : ℚ) + threshold + 1)))
      | .str s => .strList (similar_strings s data_set key threshold)
      | other => other
    else val

/-- `QueryRelaxer.extend_query_ranges` (relaxer.py lines 89–124).  The Python
loop iterates over `query.items()` and assigns `query[key] = ...` for the keys
it relaxes: the dict is updated **in place** (no key is added or removed, each
key is visited once with its original value) and the same object is returned.
The embedding's result is therefore the shared final state of the returned
query and of the caller's argument. -/
def extend_query_ranges (query : Query) (rfd : Rfd) (data_set : DataSet) : Query :=
  query.map (fun kv => (kv.1, extendValue rfd data_set kv.1 kv.2))

/-- `"".join(parts)`: concatenation of a list of strings. -/
def strJoin : List String → String
  | [] => ""
  | s :: rest => s ++ strJoin rest

/-- `str(val)` for a threshold cell: a numeral for a number, `"nan"` for NaN.
(Python renders floats as e.g. `"2.0"`; the numeral's spelling is not at
stake in any claim.) -/
def thresholdStr : Option ℚ → String
  | some q => toString q
  | none => "nan"

/-- `QueryRelaxer.rfd_to_string` (relaxer.py lines 76–81).  The comprehension
runs over `rfd.items()`; the `("RHS", name)` entry is skipped by its first
disjunct (`key == "RHS"`), which in this embedding means mapping over the
threshold columns only (a dict cannot hold a second `"RHS"` key).  An entry
whose key equals the RHS name is skipped before `np.isnan` is evaluated, and a
NaN threshold is skipped; every other entry renders as `"(key <= val) "`.
The trailer interpolates `rfd["RHS"]` and `rfd[rfd["RHS"]]` (the RHS
attribute's own threshold cell, NaN rendering as `"nan"`). -/
def rfd_to_string (rfd : Rfd) : String :=
  strJoin (rfd.attrs.map (fun kv =>
    if kv.1 = rfd.RHS ∨ kv.2 = none then ""
    else "(" ++ kv.1 ++ " <= " ++ thresholdStr kv.2 ++ ") "))
  ++ "---> (" ++ rfd.RHS ++ " <= " ++ thresholdStr (lookupThreshold rfd rfd.RHS) ++ ")"

/-- C1: `sort_nan_query_attributes` never sorts: on the catalog
`[{RHS: "price", age: 2, price: 1}]` with query attribute `age`, the
`list.extend` slip leaves `sort_values` with a `None` key, which raises, and
`query_attributes` ends up corrupted to `["age", "NaNs"]` — instead of the
documented stable sort by decreasing NaN count then increasing thresholds. -/
theorem sort_nan_query_attributes_raises :
    sort_nan_query_attributes ["age"] [Rfd.mk "price" [("age", some 2), ("price", some 1)]] =
      (Except.error "sort_values: sort key is None", ["age", "NaNs"]) := rfl

/-- C2: after `drop_query_na` then `drop_query_rhs`, every surviving row has a
present (non-NaN) threshold for each query attribute, and its RHS attribute is
not a query attribute. -/
theorem filters_remove_nan_and_rhs (query_attributes : List String) (rfds_df : List Rfd)
    (r : Rfd)
    (hr : r ∈ drop_query_rhs query_attributes (drop_query_na query_attributes rfds_df)) :
    (∀ a ∈ query_attributes, (lookupThreshold r a).isSome) ∧ r.RHS ∉ query_attributes := by
  rcases List.mem_filter.mp hr with ⟨hr1, hrhs⟩
  rcases List.mem_filter.mp hr1 with ⟨_, hna⟩
  refine ⟨fun a ha => List.all_eq_true.mp hna a ha, ?_⟩
  simpa using hrhs

theorem filters_remove_nan_and_rhs_witness :
    (∀ a ∈ ["age"],
        (lookupThreshold (Rfd.mk "price" [("age", some 1), ("price", some 2)]) a).isSome) ∧
      (Rfd.mk "price" [("age", some 1), ("price", some 2)]).RHS ∉ ["age"] :=
  filters_remove_nan_and_rhs ["age"] [Rfd.mk "price" [("age", some 1), ("price", some 2)]]
    (Rfd.mk "price" [("age", some 1), ("price", some 2)]) (by decide)

/-- C6: both filters keep the surviving rows in their original relative order
(the output is a sublist of the input), and each is idempotent. -/
theorem filters_order_preserving_idempotent (query_attributes : List String)
    (rfds_df : List Rfd) :
    (drop_query_na query_attributes rfds_df).Sublist rfds_df ∧
      (drop_query_rhs query_attributes rfds_df).Sublist rfds_df ∧
      drop_query_na query_attributes (drop_query_na query_attributes rfds_df) =
        drop_query_na query_attributes rfds_df ∧
      drop_query_rhs query_attributes (drop_query_rhs query_attributes rfds_df) =
        drop_query_rhs query_attributes rfds_df :=
  ⟨List.filter_sublist _, List.filter_sublist _,
    by simp [drop_query_na, List.filter_filter],
    by simp [drop_query_rhs, List.filter_filter]⟩

/-- C8: when a query attribute is not a column of any catalog row (its cell is
missing everywhere), `drop_query_na` completes and returns the empty catalog. -/
theorem drop_query_na_missing_column_empty (query_attributes : List String)
    (rfds_df : List Rfd) (a : String) (ha : a ∈ query_attributes)
    (hmiss : ∀ r ∈ rfds_df, lookupThreshold r a = none) :
    drop_query_na query_attributes rfds_df = [] := by
  refine List.filter_eq_nil_iff.mpr (fun r hr hall => ?_)
  have h := List.all_eq_true.mp hall a ha
  rw [hmiss r hr] at h
  simp at h

theorem drop_query_na_missing_column_empty_witness :
    drop_query_na ["city"] [Rfd.mk "price" [("age", some 1)]] = [] :=
  drop_query_na_missing_column_empty ["city"] [Rfd.mk "price" [("age", some 1)]] "city"
    (by decide) (by decide)

theorem lookup_extend (query : Query) (rfd : Rfd) (data_set : DataSet) (k : String) :
    (extend_query_ranges query rfd data_set).lookup k =
      (query.lookup k).map (extendValue rfd data_set k) := by
  induction query with
  | nil => rfl
  | cons kv rest ih =>
    by_cases h : k = kv.1
    · simp [extend_query_ranges, List.lookup, h]
    · simp only [extend_query_ranges, List.map_cons, List.lookup] at ih ⊢
      rw [beq_false_of_ne h]
      exact ih

theorem extendValue_of_no_threshold (rfd : Rfd) (data_set : DataSet) (k : String) (v : Value)
    (h : lookupThreshold rfd k = none) : extendValue rfd data_set k v = v := by
  simp [extendValue, h]

theorem extendValue_of_nonpos (rfd : Rfd) (data_set : DataSet) (k : String) (v : Value)
    (t : ℚ) (h : lookupThreshold rfd k = some t) (ht : t ≤ 0) :
    extendValue rfd data_set k v = v := by
  simp [extendValue, h, not_lt.mpr ht]

/-- C5: when the selected RFD has no threshold for a query attribute (absent
cell / NaN) or a threshold ≤ 0, the relaxed query still maps that attribute to
its original scalar value, unchanged; the function is total (never raises). -/
theorem extend_query_ranges_noop (query : Query) (rfd : Rfd) (data_set : DataSet)
    (k : String) (v : Value) (hq : query.lookup k = some v)
    (h : lookupThreshold rfd k = none ∨ ∃ t, lookupThreshold rfd k = some t ∧ t ≤ 0) :
    (extend_query_ranges query rfd data_set).lookup k = some v := by
  rw [lookup_extend, hq, Option.map_some']
  rcases h with h | ⟨t, h, ht⟩
  · rw [extendValue_of_no_threshold rfd data_set k v h]
  · rw [extendValue_of_nonpos rfd data_set k v t h ht]

theorem extend_query_ranges_noop_witness :
    (extend_query_ranges [("name", Value.str "Bob")]
        (Rfd.mk "price" [("name", some 0), ("price", some 1)]) []).lookup "name" =
      some (Value.str "Bob") :=
  extend_query_ranges_noop [("name", Value.str "Bob")]
    (Rfd.mk "price" [("name", some 0), ("price", some 1)]) [] "name" (Value.str "Bob")
    (by decide) (Or.inr ⟨0, by decide, le_refl 0⟩)

/-- C10: a query value that is numeric but not of integer type (a Python
float) is left unchanged by `extend_query_ranges` even when the RFD's
threshold for that attribute is positive: only `int` values are expanded into
ranges and only `str` values reach the similarity matcher. -/
theorem extend_query_ranges_float_unchanged (query : Query) (rfd : Rfd) (data_set : DataSet)
    (k : String) (x t : ℚ) (hq : query.lookup k = some (Value.float x))
    (ht : lookupThreshold rfd k = some t) (htpos : 0 < t) :
    (extend_query_ranges query rfd data_set).lookup k = some (Value.float x) := by
  rw [lookup_extend, hq, Option.map_some']
  simp [extendValue, ht, htpos]

theorem extend_query_ranges_float_unchanged_witness :
    (extend_query_ranges [("age", Value.float (61 / 2))]
        (Rfd.mk "price" [("age", some 2), ("price", some 1)]) []).lookup "age" =
      some (Value.float (61 / 2)) :=
  extend_query_ranges_float_unchanged [("age", Value.float (61 / 2))]
    (Rfd.mk "price" [("age", some 2), ("price", some 1)]) [] "age" (61 / 2) 2
    (by simp [List.lookup]) (by norm_num [lookupThreshold]) (by norm_num)

theorem pyInt_intCast (n : ℤ) : pyInt (n : ℚ) = n := by
  unfold pyInt
  split <;> simp

/-- C3: an integer-valued query attribute with an integer RFD threshold
`t > 0` is replaced by exactly the ordered contiguous integer sequence
`v − t, v − t + 1, …, v + t`, of length `2 t + 1`. -/
theorem extend_query_ranges_int_expansion (query : Query) (rfd : Rfd) (data_set : DataSet)
    (k : String) (v t : ℤ) (hq : query.lookup k = some (Value.int v))
    (ht : lookupThreshold rfd k = some (t : ℚ)) (htpos : 0 < t) :
    (extend_query_ranges query rfd data_set).lookup k =
        some (Value.intList
          ((List.range (2 * t + 1).toNat).map (fun i : ℕ => v - t + (i : ℤ)))) ∧
      ((List.range (2 * t + 1).toNat).map (fun i : ℕ => v - t + (i : ℤ))).length =
        2 * t.toNat + 1 := by
  have hcast : (0 : ℚ) < (t : ℚ) := by exact_mod_cast htpos
  constructor
  · rw [lookup_extend, hq, Option.map_some']
    simp only [extendValue, ht, if_pos hcast]
    have h1 : (v : ℚ) - (t : ℚ) = ((v - t : ℤ) : ℚ) := by push_cast; ring
    have h2 : (v : ℚ) + (t : ℚ) + 1 = ((v + t + 1 : ℤ) : ℚ) := by push_cast; ring
    rw [h1, h2, pyInt_intCast, pyInt_intCast]
    unfold pyRange
    have h3 : v + t + 1 - (v - t) = 2 * t + 1 := by ring
    rw [h3]
  · rw [List.length_map, List.length_range]
    omega

theorem extend_query_ranges_int_expansion_witness :
    (extend_query_ranges [("age", Value.int 30)]
        (Rfd.mk "price" [("age", some 2), ("price", some 1)]) []).lookup "age" =
        some (Value.intList
          ((List.range (2 * (2 : ℤ) + 1).toNat).map (fun i : ℕ => 30 - 2 + (i : ℤ)))) ∧
      ((List.range (2 * (2 : ℤ) + 1).toNat).map (fun i : ℕ => 30 - 2 + (i : ℤ))).length =
        2 * (2 : ℤ).toNat + 1 :=
  extend_query_ranges_int_expansion [("age", Value.int 30)]
    (Rfd.mk "price" [("age", some 2), ("price", some 1)]) [] "age" 30 2
    (by decide) (by norm_num [lookupThreshold]) (by norm_num)

theorem extendValue_cases (rfd : Rfd) (data_set : DataSet) (k : String) (v : Value) :
    extendValue rfd data_set k v = v ∨ (extendValue rfd data_set k v).isCollection = true := by
  cases h : lookupThreshold rfd k with
  | none => exact Or.inl (extendValue_of_no_threshold rfd data_set k v h)
  | some t =>
    by_cases ht : 0 < t
    · cases v <;> simp [extendValue, h, ht, Value.isCollection]
    · exact Or.inl (extendValue_of_nonpos rfd data_set k v t h (not_lt.mp ht))

/-- C7 (counterexample to "the input query object is left unchanged"): the
Python function assigns `query[key] = ...` on its argument and returns that
same dict, so after the call the caller's query holds the expanded values.
On query `{age: 30}` with RFD `{RHS: "price", age: 2, price: 1}` the shared
final state differs from the original query. -/
theorem extend_query_ranges_mutates_input :
    extend_query_ranges [("age", Value.int 30)]
        (Rfd.mk "price" [("age", some 2), ("price", some 1)]) [] ≠
      [("age", Value.int 30)] := by
  intro h
  have h' := congrArg (List.lookup "age") h
  rw [lookup_extend] at h'
  have hR : List.lookup "age" ([("age", Value.int 30)] : Query) = some (Value.int 30) := rfl
  rw [hR, Option.map_some'] at h'
  have h3 := Option.some.inj h'
  have h2 : lookupThreshold (Rfd.mk "price" [("age", some 2), ("price", some 1)]) "age" =
      some 2 := by norm_num [lookupThreshold]
  unfold extendValue at h3
  rw [h2] at h3
  norm_num at h3
  exact Value.noConfusion h3

/-- C7 (amended): `extend_query_ranges` returns the input query object updated
in place: the keys and their order are preserved, each value is either the
original scalar or a materialized collection of acceptable values, and every
attribute the RFD defines no threshold for keeps its original value. -/
theorem extend_query_ranges_inplace_frame (query : Query) (rfd : Rfd) (data_set : DataSet) :
    List.Forall₂
      (fun kv kv' : String × Value => kv'.1 = kv.1 ∧
        (kv'.2 = kv.2 ∨ kv'.2.isCollection = true) ∧
        (lookupThreshold rfd kv.1 = none → kv' = kv))
      query (extend_query_ranges query rfd data_set) := by
  induction query with
  | nil => exact List.Forall₂.nil
  | cons kv rest ih =>
    simp only [extend_query_ranges, List.map_cons] at ih ⊢
    refine List.Forall₂.cons ⟨rfl, extendValue_cases rfd data_set kv.1 kv.2, fun h => ?_⟩ ih
    rw [extendValue_of_no_threshold rfd data_set kv.1 kv.2 h]

theorem editDistance_self (xs : List Char) : editDistance xs xs = 0 := by
  induction xs with
  | nil => simp [editDistance]
  | cons x xs ih => simp [editDistance, ih]

theorem eq_of_editDistance_eq_zero :
    ∀ xs ys : List Char, editDistance xs ys = 0 → xs = ys
  | [], [], _ => rfl
  | [], _ :: _, h => by simp [editDistance] at h
  | _ :: _, [], h => by simp [editDistance] at h
  | x :: xs, y :: ys, h => by
    simp only [editDistance] at h
    have h1 : editDistance xs ys + (if x = y then 0 else 1) = 0 := by omega
    by_cases hxy : x = y
    · rw [if_pos hxy] at h1
      rw [hxy, eq_of_editDistance_eq_zero xs ys (by omega)]
    · rw [if_neg hxy] at h1
      omega
termination_by xs ys => xs.length + ys.length

theorem editDist_eq_zero_iff (s w : String) : editDist s w = 0 ↔ w = s := by
  constructor
  · intro h
    exact (String.ext (eq_of_editDistance_eq_zero s.data w.data h)).symm
  · rintro rfl
    exact editDistance_self _

/-- C4: `similar_strings` returns exactly the values of the dataset column
whose edit distance to the source is ≤ the bound — duplicates included, in
dataset row order, with no de-duplication (the output is the column filtered
by the distance predicate); at bound 0 it is exactly the occurrences equal to
the source. -/
theorem similar_strings_spec (source : String) (data : DataSet) (col : String)
    (threshold : ℚ) (ws : List String) (h0 : 0 ≤ threshold)
    (hcol : data.lookup col = some ws) :
    similar_strings source data col threshold =
        ws.filter (fun w => decide ((editDist source w : ℚ) ≤ threshold)) ∧
      (threshold = 0 →
        similar_strings source data col threshold =
          ws.filter (fun w => decide (w = source))) := by
  refine ⟨by simp [similar_strings, hcol], ?_⟩
  rintro rfl
  simp only [similar_strings, hcol, Option.getD_some]
  refine List.filter_congr (fun w _ => ?_)
  simp only [decide_eq_decide]
  rw [← editDist_eq_zero_iff]
  exact_mod_cast Nat.cast_nonpos (α := ℚ)

theorem similar_strings_spec_witness :
    similar_strings "Rome" [("city", ["Rome", "Roma", "Turin"])] "city" 0 =
        ["Rome", "Roma", "Turin"].filter
          (fun w => decide ((editDist "Rome" w : ℚ) ≤ 0)) ∧
      ((0 : ℚ) = 0 →
        similar_strings "Rome" [("city", ["Rome", "Roma", "Turin"])] "city" 0 =
          ["Rome", "Roma", "Turin"].filter (fun w => decide (w = "Rome"))) :=
  similar_strings_spec "Rome" [("city", ["Rome", "Roma", "Turin"])] "city" 0
    ["Rome", "Roma", "Turin"] (le_refl 0) rfl

theorem strJoin_map_ite {α : Type} (p : α → Prop) [DecidablePred p] (f : α → String) :
    ∀ l : List α,
      strJoin (l.map (fun a => if p a then "" else f a)) =
        strJoin ((l.filter (fun a => !(decide (p a)))).map f)
  | [] => rfl
  | a :: l => by
    by_cases h : p a
    · simp [List.filter_cons, h, strJoin, strJoin_map_ite p f l]
    · simp [List.filter_cons, h, strJoin, strJoin_map_ite p f l]

/-- C9: `rfd_to_string` renders exactly the attributes that are constrained
(threshold present) and distinct from the dependent attribute, each as
`"(attr <= threshold) "`, concatenated in column order, followed by
`"---> (RHS <= threshold_RHS)"`; attributes with an absent threshold and the
attribute equal to the RHS are omitted from the left-hand list. -/
theorem rfd_to_string_spec (rfd : Rfd) :
    rfd_to_string rfd =
      strJoin (((rfd.attrs.filter
            (fun kv => !(decide (kv.1 = rfd.RHS ∨ kv.2 = none)))).map
          (fun kv => "(" ++ kv.1 ++ " <= " ++ thresholdStr kv.2 ++ ") "))) ++
        "---> (" ++ rfd.RHS ++ " <= " ++ thresholdStr (lookupThreshold rfd rfd.RHS) ++ ")" := by
  unfold rfd_to_string
  rw [strJoin_map_ite]
